import Mathlib

/-!
Verification development for the STAC search module
(`src/pygeoapi/api/stac.py`).

The Python module is shallowly embedded below.  JSON catalog documents are
modelled by the structure `Node`; the upstream provider (`get_stac_path`
delegates the actual document content to a provider plugin that is not part
of this repository) is modelled by an abstract total resolver
`resolve : String -> Node`, which absorbs the href-to-path rewriting
`r.split('stac')[-1][1:]` performed before each fetch.  Geometry objects and
their intersection test live in the external `shapely` library; they are
modelled by the opaque type `Geom` together with an abstract boolean
predicate parameter.  Bounding-box coordinates are modelled by rationals;
the floating-point rounding of the source is not modelled (all inputs used
in the claims are small integers, on which double arithmetic is exact).

Recursion in `_recursiveSearchItems` is unbounded in Python; it is embedded
with an explicit fuel argument, the result being `none` exactly when the
Python call tree is deeper than the supplied fuel.  Divergence of the
Python function is therefore `none` for every fuel value.
-/

/-- A STAC link object: the two fields the search module reads. -/
structure Link where
  rel : String
  href : String
  deriving DecidableEq

/-- Opaque stand-in for a parsed GeoJSON geometry.  The source hands
geometries to the external `shapely` library and only observes the boolean
result of `intersects`, so the payload is irrelevant here. -/
structure Geom where
  raw : Nat
  deriving DecidableEq

/-- A catalog document as consumed by the search module: the JSON fields the
code reads (`type`, `id`, `links`, `bbox`, `geometry`) plus a list of
further string-valued fields (`extra`) standing for the remaining JSON
keys, used by the sort stage's `k.get(field, '')`. -/
structure Node where
  type : String
  id : String
  links : List Link
  bbox : List ℚ
  geometry : Geom
  extra : List (String × String)
  deriving DecidableEq

/-- `rel` values never descended: line 365,
`r['rel'] != 'root' and r['rel'] != 'self' and r['rel'] != 'parent'`. -/
def droppedRel (l : Link) : Bool :=
  l.rel == "root" || l.rel == "self" || l.rel == "parent"

/-- The filter applied when collecting links for the next recursion round:
line 376, `obj['rel'] == 'chlid' or obj['rel'] == 'item'`.  Note the
misspelling `chlid`, reproduced verbatim from the source. -/
def traversalRel (l : Link) : Bool :=
  l.rel == "chlid" || l.rel == "item"

/-- Lines 365-369: drop `root`/`self`/`parent` links and resolve every
remaining link to a catalog node. -/
def roundNodes (resolve : String → Node) (links : List Link) : List Node :=
  (links.filter (fun l => !droppedRel l)).map (fun l => resolve l.href)

/-- Line 370: the resolved nodes of type `Feature`, emitted as results. -/
def roundItems (resolve : String → Node) (links : List Link) : List Node :=
  (roundNodes resolve links).filter (fun n => n.type == "Feature")

/-- Line 371: the link lists of the resolved non-`Feature` nodes. -/
def roundRest (resolve : String → Node) (links : List Link) : List (List Link) :=
  ((roundNodes resolve links).filter (fun n => !(n.type == "Feature"))).map Node.links

/-- Lines 374-377: the links collected for the next recursion round. -/
def roundNext (resolve : String → Node) (links : List Link) : List Link :=
  (roundRest resolve links).flatten.filter traversalRel

/-- `_recursiveSearchItems` (lines 364-380), with explicit fuel.  `none`
models a Python call tree deeper than `fuel`. -/
def recursiveSearchItems (resolve : String → Node) : Nat → List Link → Option (List Node)
  | 0, _ => none
  | fuel + 1, links =>
    if 0 < (roundRest resolve links).length then
      match recursiveSearchItems resolve fuel (roundNext resolve links) with
      | none => none
      | some tmp => some (roundItems resolve links ++ tmp)
    else
      some (roundItems resolve links)

/-- Modelled from the spec (not from the source): the set of `Feature`
nodes reachable from a link set by descending only links whose `rel` is
`child` or `item`, one occurrence per distinct path.  This is the
comparator for the refinement claim about `_recursiveSearchItems`. -/
def specReachableFeatures (resolve : String → Node) : Nat → List Link → Option (List Node)
  | 0, _ => none
  | fuel + 1, links =>
    ((links.filter (fun l => l.rel == "child" || l.rel == "item")).mapM (fun l =>
      if (resolve l.href).type == "Feature" then some [resolve l.href]
      else specReachableFeatures resolve fuel (resolve l.href).links)).map List.flatten

/-- A `Feature` leaf used by the concrete catalogs below. -/
def featF : Node :=
  ⟨"Feature", "F1", [], [], ⟨0⟩, []⟩

/-- A sub-catalog holding one `item` link to the feature `F`. -/
def catB : Node :=
  ⟨"Catalog", "B", [⟨"item", "F"⟩], [], ⟨0⟩, []⟩

/-- A collection whose only link is a genuine `child` link to `B`. -/
def catA : Node :=
  ⟨"Catalog", "A", [⟨"child", "B"⟩], [], ⟨0⟩, []⟩

/-- Concrete catalog for the `chlid` misspelling: `A --child--> B --item--> F`. -/
def chlidResolve : String → Node := fun h =>
  if h == "A" then catA else if h == "B" then catB else featF

/-- Claim C1: the recursive item search is claimed to return exactly the
`Feature` nodes reachable via `child`/`item` links.  On the catalog
`A --child--> B --item--> F` the code returns no feature at all, because
the deeper-round link filter compares `rel` against the misspelled string
`chlid` (line 376) and so drops the genuine `child` link to `B`, while the
feature `F` is reachable (the spec-side traversal returns it once). -/
theorem claimC1_chlid_divergence :
    recursiveSearchItems chlidResolve 5 [⟨"child", "A"⟩] = some [] ∧
    specReachableFeatures chlidResolve 5 [⟨"child", "A"⟩] = some [featF] := by
  decide

/-- Acyclicity of the catalog's link graph, expressed as a rank function
that strictly decreases along every link of every resolved document. -/
def DecreasingRank (resolve : String → Node) (rank : String → Nat) : Prop :=
  ∀ h : String, ∀ l ∈ (resolve h).links, rank l.href < rank h

/-- Every link of a link set points below rank `n`. -/
def LinksBelow (rank : String → Nat) (links : List Link) (n : Nat) : Prop :=
  ∀ l ∈ links, rank l.href < n

/-- The recursive item search diverges on a link set: no amount of fuel
completes it (this is exactly non-termination of the Python recursion). -/
def FlattenDiverges (resolve : String → Node) (links : List Link) : Prop :=
  ∀ fuel : Nat, recursiveSearchItems resolve fuel links = none

/-- No document of the catalog carries a link with `rel = 'child'`. -/
def NoChildLinks (resolve : String → Node) : Prop :=
  ∀ h : String, ∀ l ∈ (resolve h).links, l.rel ≠ "child"

theorem mem_roundNext {resolve : String → Node} {links : List Link} {l' : Link}
    (h : l' ∈ roundNext resolve links) :
    ∃ l ∈ links, l' ∈ (resolve l.href).links := by
  have h1 := (List.mem_filter.mp h).1
  obtain ⟨ll, hll, hmem⟩ := List.mem_flatten.mp h1
  obtain ⟨nd, hnd, rfl⟩ := List.mem_map.mp hll
  have hnd' := (List.mem_filter.mp hnd).1
  obtain ⟨l, hl, rfl⟩ := List.mem_map.mp hnd'
  exact ⟨l, (List.mem_filter.mp hl).1, hmem⟩

theorem linksBelow_roundNext {resolve : String → Node} {rank : String → Nat}
    {links : List Link} {n : Nat} (hdec : DecreasingRank resolve rank)
    (hb : LinksBelow rank links (n + 1)) :
    LinksBelow rank (roundNext resolve links) n := by
  intro l' hl'
  obtain ⟨l, hl, hmem⟩ := mem_roundNext hl'
  have h1 := hdec l.href l' hmem
  have h2 := hb l hl
  omega

/-- Claim C2 (amended): for every catalog admitting a strictly decreasing
rank along its links (an acyclic catalog), the recursive item search
completes once the fuel exceeds the rank bound of the starting link set. -/
theorem claimC2_acyclic_terminates :
    ∀ (resolve : String → Node) (rank : String → Nat) (n : Nat) (links : List Link)
      (fuel : Nat), DecreasingRank resolve rank → LinksBelow rank links n →
      n < fuel → (recursiveSearchItems resolve fuel links).isSome = true := by
  intro resolve rank n
  induction n with
  | zero =>
    intro links fuel _ hb hfuel
    have hnil : links = [] := by
      cases links with
      | nil => rfl
      | cons l ls => exact absurd (hb l (List.mem_cons_self l ls)) (by omega)
    subst hnil
    obtain ⟨f, rfl⟩ : ∃ f, fuel = f + 1 := ⟨fuel - 1, by omega⟩
    simp [recursiveSearchItems, roundRest, roundNodes]
  | succ n ih =>
    intro links fuel hdec hb hfuel
    obtain ⟨f, rfl⟩ : ∃ f, fuel = f + 1 := ⟨fuel - 1, by omega⟩
    have hnext : LinksBelow rank (roundNext resolve links) n :=
      linksBelow_roundNext hdec hb
    have hrec := ih (roundNext resolve links) f hdec hnext (by omega)
    rw [recursiveSearchItems]
    by_cases hlen : 0 < (roundRest resolve links).length
    · rw [if_pos hlen]
      obtain ⟨tmp, htmp⟩ := Option.isSome_iff_exists.mp hrec
      rw [htmp]
      rfl
    · rw [if_neg hlen]
      rfl

/-- Acyclic concrete catalog: `B --item--> F`, every other path resolves to
the leaf feature (which has no links at all). -/
def acyclicResolve : String → Node := fun h =>
  if h == "B" then catB else featF

/-- Rank witnessing acyclicity of `acyclicResolve`. -/
def acyclicRank : String → Nat := fun h =>
  if h == "B" then 1 else 0

theorem acyclicResolve_decreasing : DecreasingRank acyclicResolve acyclicRank := by
  intro h l hl
  unfold acyclicResolve at hl
  by_cases hB : h == "B"
  · rw [if_pos hB] at hl
    have : l = ⟨"item", "F"⟩ := by
      simpa [catB] using hl
    subst this
    have : h = "B" := by simpa using hB
    subst this
    decide
  · rw [if_neg hB] at hl
    simp [featF] at hl

theorem claimC2_terminates_witness :
    DecreasingRank acyclicResolve acyclicRank ∧
    LinksBelow acyclicRank [⟨"child", "B"⟩] 2 ∧
    (recursiveSearchItems acyclicResolve 3 [⟨"child", "B"⟩]).isSome = true := by
  have hb : LinksBelow acyclicRank [⟨"child", "B"⟩] 2 := by
    intro l hl
    have : l = ⟨"child", "B"⟩ := by simpa using hl
    subst this
    decide
  exact ⟨acyclicResolve_decreasing, hb,
    claimC2_acyclic_terminates acyclicResolve acyclicRank 2 [⟨"child", "B"⟩] 3
      acyclicResolve_decreasing hb (by omega)⟩

/-- A catalog document that links to itself through an `item` link. -/
def loopNode : Node :=
  ⟨"Catalog", "loop", [⟨"item", "loop"⟩], [], ⟨0⟩, []⟩

/-- A catalog whose every path resolves to the `item`-self-looping node;
it contains no `child` link anywhere. -/
def loopResolve : String → Node := fun _ => loopNode

/-- Counterexample to claim C2 as stated: the recursive item search
diverges (every fuel value is exhausted) on a catalog that contains no
`child` link at all — the cycle runs through an `item` link — so
non-termination is not restricted to cycles in `child` links.  (Indeed a
cycle of genuine `child` links terminates, because the misspelled filter
`chlid` drops such links after the first round.) -/
theorem claimC2_item_cycle_counterexample :
    FlattenDiverges loopResolve [⟨"item", "loop"⟩] ∧ NoChildLinks loopResolve := by
  constructor
  · intro fuel
    induction fuel with
    | zero => rfl
    | succ f ih =>
      have hnext : roundNext loopResolve [⟨"item", "loop"⟩] = [⟨"item", "loop"⟩] := by
        decide
      have hlen : 0 < (roundRest loopResolve [⟨"item", "loop"⟩]).length := by
        decide
      rw [recursiveSearchItems, if_pos hlen, hnext, ih]
  · intro h l hl
    have : l = ⟨"item", "loop"⟩ := by
      simpa [loopResolve, loopNode] using hl
    subst this
    decide

/-- The requested sort: the first entry of the query's `sortby` list
(line 409).  The `direction` member is carried along but, as the theorems
below show, never consulted. -/
structure SortBy where
  field : String
  direction : String
  deriving DecidableEq

/-- The parsed search request, as it stands after lines 394-415: `criteria`
is the list of remaining query keys (`max_items`, `sortby` and `limit`
already removed and returned separately), and each predicate value is
meaningful when its key occurs in `criteria`.  `intersects` stands for the
already-parsed geometry; the `shape` parse failure branch (lines 478-483)
is outside the claims settled here. -/
structure SearchQuery where
  criteria : List String
  ids : List String
  collections : List String
  bbox : List ℚ
  intersects : Geom
  maxItems : Int
  sortby : SortBy

/-- An axis-aligned rectangle, the value of `shapely.geometry.box`. -/
structure Rect where
  minx : ℚ
  miny : ℚ
  maxx : ℚ
  maxy : ℚ
  deriving DecidableEq

/-- `shapely.geometry.box(*bbox)` for a 4-element bbox
`[minx, miny, maxx, maxy]`.  Modelled from the spec: `shapely` is an
external collaborator; the box constructor just records the four
coordinates. -/
def boxOf (b : List ℚ) : Rect :=
  ⟨b.getD 0 0, b.getD 1 0, b.getD 2 0, b.getD 3 0⟩

/-- `shapely` rectangle intersection.  Modelled from the spec: "standard 2D
rectangle-intersection test" — two closed axis-aligned rectangles meet iff
they overlap on both axes (touching boundaries count). -/
def rectIntersects (a b : Rect) : Bool :=
  decide (a.minx ≤ b.maxx) && decide (b.minx ≤ a.maxx) &&
  decide (a.miny ≤ b.maxy) && decide (b.miny ≤ a.maxy)

/-- `[i for i, x in enumerate(bs) if x]`, starting the enumeration at `i`. -/
def trueIdxsFrom (i : Nat) : List Bool → List Nat
  | [] => []
  | b :: bs =>
    if b then i :: trueIdxsFrom (i + 1) bs else trueIdxsFrom (i + 1) bs

/-- `[i for i, x in enumerate(bs) if x]` (used at lines 460, 471, 486). -/
def trueIdxs (bs : List Bool) : List Nat :=
  trueIdxsFrom 0 bs

theorem mem_trueIdxsFrom (bs : List Bool) :
    ∀ i j, j ∈ trueIdxsFrom i bs ↔ ∃ d, bs[d]? = some true ∧ j = i + d := by
  induction bs with
  | nil =>
    intro i j
    simp [trueIdxsFrom]
  | cons b bs ih =>
    intro i j
    cases b with
    | true =>
      simp only [trueIdxsFrom, if_pos]
      constructor
      · intro hj
        rcases List.mem_cons.mp hj with rfl | hj'
        · exact ⟨0, by simp⟩
        · obtain ⟨d, hd, rfl⟩ := (ih (i + 1) j).mp hj'
          exact ⟨d + 1, by simpa using hd, by omega⟩
      · rintro ⟨d, hd, rfl⟩
        cases d with
        | zero => simp
        | succ d =>
          refine List.mem_cons.mpr (Or.inr ((ih (i + 1) (i + (d + 1))).mpr ?_))
          exact ⟨d, by simpa using hd, by omega⟩
    | false =>
      simp only [trueIdxsFrom, if_neg]
      constructor
      · intro hj
        obtain ⟨d, hd, rfl⟩ := (ih (i + 1) j).mp hj
        exact ⟨d + 1, by simpa using hd, by omega⟩
      · rintro ⟨d, hd, rfl⟩
        cases d with
        | zero => simp at hd
        | succ d =>
          exact (ih (i + 1) (i + (d + 1))).mpr ⟨d, by simpa using hd, by omega⟩

theorem mem_trueIdxs {bs : List Bool} {j : Nat} :
    j ∈ trueIdxs bs ↔ bs[j]? = some true := by
  unfold trueIdxs
  rw [mem_trueIdxsFrom]
  constructor
  · rintro ⟨d, hd, rfl⟩
    simpa using hd
  · intro h
    exact ⟨j, h, by omega⟩

theorem mem_trueIdxs_map {α : Type} {f : α → Bool} {xs : List α} {i : Nat}
    (h : i < xs.length) : i ∈ trueIdxs (xs.map f) ↔ f xs[i] = true := by
  rw [mem_trueIdxs, List.getElem?_map, List.getElem?_eq_getElem h]
  simp

/-- The `ids` predicate (lines 453-462): map each item to its `id`, test
membership in the queried id list, and keep the matching indices. -/
def idsIdxs (items : List Node) (ids : List String) : List Nat :=
  trueIdxs ((items.map (fun o => o.id)).map (fun x => decide (x ∈ ids)))

/-- The `bbox` predicate (lines 463-473): build the query box once, map
each item to the box of its own `bbox`, and keep the indices whose box
intersects the query box. -/
def bboxIdxs (items : List Node) (b : List ℚ) : List Nat :=
  trueIdxs (((items.map (fun o => o.bbox)).map boxOf).map
    (fun x => rectIntersects (boxOf b) x))

/-- The `intersects` predicate (lines 474-488): map each item to its
geometry and keep the indices whose geometry intersects the query
geometry.  `gint` is the external `shapely` intersection predicate. -/
def geoIdxs (gint : Geom → Geom → Bool) (items : List Node) (g : Geom) : List Nat :=
  trueIdxs ((items.map (fun o => o.geometry)).map (fun x => gint g x))

/-- One iteration of the `for filter_ in criteria` loop (lines 452-488):
each of the three recognized keys appends its match indices to the
accumulated `filter_idx` and sets `got_filter`.  The `Counter` of the
source is modelled by the concatenated update list: the only downstream
use of `filter_idx` is the membership test `i in find_idx`, and
`list(Counter(updates).keys())` has the same members as `updates`. -/
def filterStep (gint : Geom → Geom → Bool) (items : List Node) (q : SearchQuery)
    (acc : List Nat × Bool) (k : String) : List Nat × Bool :=
  let acc1 := if k == "ids" then (acc.1 ++ idsIdxs items q.ids, true) else acc
  let acc2 := if k == "bbox" then (acc1.1 ++ bboxIdxs items q.bbox, true) else acc1
  if k == "intersects" then (acc2.1 ++ geoIdxs gint items q.intersects, true) else acc2

/-- The whole filter loop: `filter_idx` (first component) and `got_filter`
(second component) after iterating over all criteria keys. -/
def filterAccum (gint : Geom → Geom → Bool) (items : List Node) (q : SearchQuery) :
    List Nat × Bool :=
  q.criteria.foldl (filterStep gint items q) ([], false)

/-- Line 530: the selected index list — the accumulated matches when some
recognized predicate ran, all indices otherwise. -/
def findIdxOf (gint : Geom → Geom → Bool) (items : List Node) (q : SearchQuery) :
    List Nat :=
  if (filterAccum gint items q).2 = true then (filterAccum gint items q).1
  else List.range items.length

/-- `[r for i, r in enumerate(result) if (i in find_idx)]` starting the
enumeration at `i`. -/
def selectFrom {α : Type} (idxs : List Nat) : Nat → List α → List α
  | _, [] => []
  | i, x :: xs =>
    if i ∈ idxs then x :: selectFrom idxs (i + 1) xs else selectFrom idxs (i + 1) xs

/-- Line 531: the filtered item list. -/
def filterStage (gint : Geom → Geom → Bool) (items : List Node) (q : SearchQuery) :
    List Node :=
  selectFrom (findIdxOf gint items q) 0 items

theorem filterStep_fst_mem (gint : Geom → Geom → Bool) (items : List Node)
    (q : SearchQuery) (acc : List Nat × Bool) (k : String) (i : Nat) :
    i ∈ (filterStep gint items q acc k).1 ↔
      i ∈ acc.1 ∨ (k = "ids" ∧ i ∈ idsIdxs items q.ids) ∨
        (k = "bbox" ∧ i ∈ bboxIdxs items q.bbox) ∨
        (k = "intersects" ∧ i ∈ geoIdxs gint items q.intersects) := by
  by_cases h1 : k = "ids" <;> by_cases h2 : k = "bbox" <;>
    by_cases h3 : k = "intersects" <;>
    simp_all [filterStep, List.mem_append]

theorem filterStep_snd (gint : Geom → Geom → Bool) (items : List Node)
    (q : SearchQuery) (acc : List Nat × Bool) (k : String) :
    (filterStep gint items q acc k).2 = true ↔
      acc.2 = true ∨ k = "ids" ∨ k = "bbox" ∨ k = "intersects" := by
  by_cases h1 : k = "ids" <;> by_cases h2 : k = "bbox" <;>
    by_cases h3 : k = "intersects" <;>
    simp_all [filterStep]

theorem foldl_filterStep_fst_mem (gint : Geom → Geom → Bool) (items : List Node)
    (q : SearchQuery) (i : Nat) :
    ∀ (ks : List String) (acc : List Nat × Bool),
      i ∈ (ks.foldl (filterStep gint items q) acc).1 ↔
        i ∈ acc.1 ∨ ("ids" ∈ ks ∧ i ∈ idsIdxs items q.ids) ∨
          ("bbox" ∈ ks ∧ i ∈ bboxIdxs items q.bbox) ∨
          ("intersects" ∈ ks ∧ i ∈ geoIdxs gint items q.intersects) := by
  intro ks
  induction ks with
  | nil => simp
  | cons k ks ih =>
    intro acc
    rw [List.foldl_cons, ih, filterStep_fst_mem]
    simp only [List.mem_cons]
    constructor
    · rintro ((h | ⟨rfl, h⟩ | ⟨rfl, h⟩ | ⟨rfl, h⟩) | ⟨hk, h⟩ | ⟨hk, h⟩ | ⟨hk, h⟩)
      · exact Or.inl h
      · exact Or.inr (Or.inl ⟨Or.inl rfl, h⟩)
      · exact Or.inr (Or.inr (Or.inl ⟨Or.inl rfl, h⟩))
      · exact Or.inr (Or.inr (Or.inr ⟨Or.inl rfl, h⟩))
      · exact Or.inr (Or.inl ⟨Or.inr hk, h⟩)
      · exact Or.inr (Or.inr (Or.inl ⟨Or.inr hk, h⟩))
      · exact Or.inr (Or.inr (Or.inr ⟨Or.inr hk, h⟩))
    · rintro (h | ⟨rfl | hk, h⟩ | ⟨rfl | hk, h⟩ | ⟨rfl | hk, h⟩)
      · exact Or.inl (Or.inl h)
      · exact Or.inl (Or.inr (Or.inl ⟨rfl, h⟩))
      · exact Or.inr (Or.inl ⟨hk, h⟩)
      · exact Or.inl (Or.inr (Or.inr (Or.inl ⟨rfl, h⟩)))
      · exact Or.inr (Or.inr (Or.inl ⟨hk, h⟩))
      · exact Or.inl (Or.inr (Or.inr (Or.inr ⟨rfl, h⟩)))
      · exact Or.inr (Or.inr (Or.inr ⟨hk, h⟩))

theorem foldl_filterStep_snd (gint : Geom → Geom → Bool) (items : List Node)
    (q : SearchQuery) :
    ∀ (ks : List String) (acc : List Nat × Bool),
      (ks.foldl (filterStep gint items q) acc).2 = true ↔
        acc.2 = true ∨ "ids" ∈ ks ∨ "bbox" ∈ ks ∨ "intersects" ∈ ks := by
  intro ks
  induction ks with
  | nil => simp
  | cons k ks ih =>
    intro acc
    rw [List.foldl_cons, ih, filterStep_snd]
    simp only [List.mem_cons]
    constructor
    · rintro ((h | rfl | rfl | rfl) | h | h | h)
      · exact Or.inl h
      · exact Or.inr (Or.inl (Or.inl rfl))
      · exact Or.inr (Or.inr (Or.inl (Or.inl rfl)))
      · exact Or.inr (Or.inr (Or.inr (Or.inl rfl)))
      · exact Or.inr (Or.inl (Or.inr h))
      · exact Or.inr (Or.inr (Or.inl (Or.inr h)))
      · exact Or.inr (Or.inr (Or.inr (Or.inr h)))
    · rintro (h | (rfl | h) | (rfl | h) | (rfl | h))
      · exact Or.inl (Or.inl h)
      · exact Or.inl (Or.inr (Or.inl rfl))
      · exact Or.inr (Or.inl h)
      · exact Or.inl (Or.inr (Or.inr (Or.inl rfl)))
      · exact Or.inr (Or.inr (Or.inl h))
      · exact Or.inl (Or.inr (Or.inr (Or.inr rfl)))
      · exact Or.inr (Or.inr (Or.inr h))

theorem selectFrom_sublist {α : Type} (idxs : List Nat) :
    ∀ (xs : List α) (i : Nat), List.Sublist (selectFrom idxs i xs) xs := by
  intro xs
  induction xs with
  | nil => intro i; exact List.Sublist.refl []
  | cons x xs ih =>
    intro i
    unfold selectFrom
    by_cases hmem : i ∈ idxs
    · rw [if_pos hmem]
      exact List.Sublist.cons₂ x (ih (i + 1))
    · rw [if_neg hmem]
      exact List.Sublist.cons x (ih (i + 1))

theorem selectFrom_range {α : Type} :
    ∀ (xs : List α) (i n : Nat), i + xs.length ≤ n →
      selectFrom (List.range n) i xs = xs := by
  intro xs
  induction xs with
  | nil => intro i n _; rfl
  | cons x xs ih =>
    intro i n hlen
    unfold selectFrom
    have hmem : i ∈ List.range n := List.mem_range.mpr (by simp at hlen; omega)
    rw [if_pos hmem, ih (i + 1) n (by simp at hlen ⊢; omega)]

/-- Claim C4: when none of the recognized predicate keys `ids`, `bbox`,
`intersects` occurs among the query's criteria — whatever other keys such
as `collections` or unrecognized ones are present — `got_filter` stays
false, the selected index list is `range(len(items))`, and every flattened
item passes through unchanged. -/
theorem claimC4_no_predicate_passthrough :
    ∀ (gint : Geom → Geom → Bool) (items : List Node) (q : SearchQuery),
      "ids" ∉ q.criteria → "bbox" ∉ q.criteria → "intersects" ∉ q.criteria →
      findIdxOf gint items q = List.range items.length ∧
        filterStage gint items q = items := by
  intro gint items q h1 h2 h3
  have hsnd : ¬((filterAccum gint items q).2 = true) := by
    rw [filterAccum, foldl_filterStep_snd]
    simp [h1, h2, h3]
  have hidx : findIdxOf gint items q = List.range items.length := by
    rw [findIdxOf, if_neg hsnd]
  refine ⟨hidx, ?_⟩
  rw [filterStage, hidx]
  exact selectFrom_range items 0 items.length (by omega)

/-- Purely intersection-free stand-in for the `shapely` geometry predicate,
used in concrete witnesses. -/
def gintNone : Geom → Geom → Bool := fun _ _ => false

/-- Feature item with bbox `[5, 5, 15, 15]` (overlaps the demo query box). -/
def itemX : Node :=
  ⟨"Feature", "X", [], [5, 5, 15, 15], ⟨1⟩, []⟩

/-- Feature item with bbox `[20, 20, 30, 30]` (disjoint from the demo box). -/
def itemY : Node :=
  ⟨"Feature", "Y", [], [20, 20, 30, 30], ⟨2⟩, []⟩

/-- A query whose criteria carry no recognized predicate key. -/
def queryNoPred : SearchQuery :=
  ⟨["collections", "unrecognized"], [], ["c1"], [], ⟨0⟩, -1, ⟨"", "asc"⟩⟩

theorem claimC4_witness :
    ("ids" ∉ queryNoPred.criteria) ∧ ("bbox" ∉ queryNoPred.criteria) ∧
    ("intersects" ∉ queryNoPred.criteria) ∧
    findIdxOf gintNone [itemX, itemY] queryNoPred = List.range 2 ∧
    filterStage gintNone [itemX, itemY] queryNoPred = [itemX, itemY] := by
  have h := claimC4_no_predicate_passthrough gintNone [itemX, itemY] queryNoPred
    (by decide) (by decide) (by decide)
  exact ⟨by decide, by decide, by decide, h.1, h.2⟩

/-- Claim C5: with at least one active predicate, an index is selected iff
it matches at least one of the active predicates (logical OR / union), and
the selected result is a sublist of the flattened items — so an item
occurrence matched by several predicates appears exactly once. -/
theorem claimC5_union_filter :
    ∀ (gint : Geom → Geom → Bool) (items : List Node) (q : SearchQuery),
      ("ids" ∈ q.criteria ∨ "bbox" ∈ q.criteria ∨ "intersects" ∈ q.criteria) →
      (∀ i : Nat, i ∈ findIdxOf gint items q ↔
        ("ids" ∈ q.criteria ∧ i ∈ idsIdxs items q.ids) ∨
          ("bbox" ∈ q.criteria ∧ i ∈ bboxIdxs items q.bbox) ∨
          ("intersects" ∈ q.criteria ∧ i ∈ geoIdxs gint items q.intersects)) ∧
        List.Sublist (filterStage gint items q) items := by
  intro gint items q hgot
  have hsnd : (filterAccum gint items q).2 = true := by
    rw [filterAccum, foldl_filterStep_snd]
    tauto
  constructor
  · intro i
    rw [findIdxOf, if_pos hsnd, filterAccum, foldl_filterStep_fst_mem]
    simp
  · exact selectFrom_sublist _ items 0

/-- A query whose only criterion is `ids = ["Y"]`. -/
def queryIdsOnly : SearchQuery :=
  ⟨["ids"], ["Y"], [], [], ⟨0⟩, -1, ⟨"", "asc"⟩⟩

theorem claimC5_witness :
    ("ids" ∈ queryIdsOnly.criteria ∨ "bbox" ∈ queryIdsOnly.criteria ∨
      "intersects" ∈ queryIdsOnly.criteria) ∧
    (1 ∈ findIdxOf gintNone [itemX, itemY] queryIdsOnly ↔
      ("ids" ∈ queryIdsOnly.criteria ∧ 1 ∈ idsIdxs [itemX, itemY] queryIdsOnly.ids) ∨
        ("bbox" ∈ queryIdsOnly.criteria ∧ 1 ∈ bboxIdxs [itemX, itemY] queryIdsOnly.bbox) ∨
        ("intersects" ∈ queryIdsOnly.criteria ∧
          1 ∈ geoIdxs gintNone [itemX, itemY] queryIdsOnly.intersects)) ∧
    List.Sublist (filterStage gintNone [itemX, itemY] queryIdsOnly) [itemX, itemY] := by
  have h := claimC5_union_filter gintNone [itemX, itemY] queryIdsOnly (by decide)
  exact ⟨by decide, h.1 1, h.2⟩

/-- Claim C8: under the `bbox` predicate an index is matched iff the box
built from the query bbox intersects the box built from the item's own
bbox; concretely, for query box `[0,0,10,10]`, item X (`[5,5,15,15]`) is
selected and item Y (`[20,20,30,30]`) is not. -/
theorem claimC8_bbox_predicate :
    (∀ (items : List Node) (b : List ℚ) (i : Nat) (h : i < items.length),
      (i ∈ bboxIdxs items b ↔
        rectIntersects (boxOf b) (boxOf (items.get ⟨i, h⟩).bbox) = true)) ∧
    bboxIdxs [itemX, itemY] [0, 0, 10, 10] = [0] := by
  constructor
  · intro items b i h
    unfold bboxIdxs
    rw [List.map_map]
    have hlen : i < (items.map (fun o => o.bbox)).length := by simpa using h
    rw [mem_trueIdxs_map hlen]
    simp
  · decide

theorem claimC8_witness :
    (0 < 2) ∧
    (0 ∈ bboxIdxs [itemX, itemY] [0, 0, 10, 10] ↔
      rectIntersects (boxOf [0, 0, 10, 10]) (boxOf itemX.bbox) = true) := by
  exact ⟨by decide, claimC8_bbox_predicate.1 [itemX, itemY] [0, 0, 10, 10] 0 (by decide)⟩

/-- `k.get(sortby['field'], '')` (line 532) for the string-valued JSON
fields of an item document: the top-level keys `id` and `type`, then the
remaining string-valued fields; a missing field yields the empty string
(the non-string-valued keys of a real document are not sortable this way
and are outside the claims below). -/
def Node.getD (o : Node) (k : String) : String :=
  if k == "id" then o.id
  else if k == "type" then o.type
  else ((o.extra.find? (fun p => p.1 == k)).map Prod.snd).getD ""

/-- The comparison used by the sort stage: ascending by the `sortby.field`
key.  The `direction` member of `sortby` is not consulted — exactly as in
line 532, where `sorted(result, key=...)` receives no `reverse` flag. -/
def sortLe (s : SortBy) (a b : Node) : Prop :=
  Node.getD a s.field ≤ Node.getD b s.field

instance sortLeDecidable (s : SortBy) : DecidableRel (sortLe s) := fun a b =>
  decidable_of_iff ((Node.getD a s.field).toList ≤ (Node.getD b s.field).toList)
    String.le_iff_toList_le.symm

instance sortLeTotal (s : SortBy) : IsTotal Node (sortLe s) :=
  ⟨fun a b => le_total (Node.getD a s.field) (Node.getD b s.field)⟩

instance sortLeTrans (s : SortBy) : IsTrans Node (sortLe s) :=
  ⟨fun _ _ _ hab hbc => le_trans hab hbc⟩

/-- Line 532, `sorted(result, key=lambda k: k.get(sortby['field'], ''))`.
Python's built-in `sorted` is a stable ascending sort by key; it is
modelled by a stable comparison sort over the key order `sortLe`. -/
def sortStage (items : List Node) (s : SortBy) : List Node :=
  List.insertionSort (sortLe s) items

/-- Items with ids `a`, `b`, `c` for the sort scenario. -/
def nodeA : Node :=
  ⟨"Feature", "a", [], [], ⟨0⟩, []⟩

/-- Item with id `b`. -/
def nodeB : Node :=
  ⟨"Feature", "b", [], [], ⟨0⟩, []⟩

/-- Item with id `c`. -/
def nodeC : Node :=
  ⟨"Feature", "c", [], [], ⟨0⟩, []⟩

/-- Claim C7: the sort stage returns a permutation of the matched items,
sorted ascending by the `sortby.field` key; an item lacking the field
contributes the empty string as its key (total, never an error); and the
scenario with ids `c`, `a`, `b` sorted by `id` comes out `a`, `b`, `c`. -/
theorem claimC7_sort_ascending :
    (∀ (items : List Node) (s : SortBy),
      List.Perm (sortStage items s) items ∧
        List.Sorted (sortLe s) (sortStage items s)) ∧
    (∀ (s : SortBy) (o : Node), s.field ≠ "id" → s.field ≠ "type" →
      o.extra.find? (fun p => p.1 == s.field) = none → Node.getD o s.field = "") ∧
    sortStage [nodeC, nodeA, nodeB] ⟨"id", "asc"⟩ = [nodeA, nodeB, nodeC] := by
  refine ⟨fun items s => ⟨List.perm_insertionSort (sortLe s) items,
    List.sorted_insertionSort (sortLe s) items⟩, ?_, by decide⟩
  intro s o h1 h2 h3
  simp [Node.getD, h1, h2, h3]

theorem claimC7_witness :
    (("year" : String) ≠ "id") ∧ (("year" : String) ≠ "type") ∧
    (nodeA.extra.find? (fun p => p.1 == "year") = none) ∧
    Node.getD nodeA "year" = "" := by
  exact ⟨by decide, by decide, by decide,
    claimC7_sort_ascending.2.1 ⟨"year", "asc"⟩ nodeA (by decide) (by decide) (by decide)⟩

/-- Claim C9: the requested sort direction is ignored — the sort stage
computes the same (ascending) order for any two `direction` values; in
particular requesting `desc` still yields `a`, `b`, `c`. -/
theorem claimC9_direction_ignored :
    (∀ (items : List Node) (f d1 d2 : String),
      sortStage items ⟨f, d1⟩ = sortStage items ⟨f, d2⟩) ∧
    sortStage [nodeC, nodeA, nodeB] ⟨"id", "desc"⟩ = [nodeA, nodeB, nodeC] := by
  exact ⟨fun _ _ _ _ => rfl, by decide⟩

/-- Python's `xs[:m]` slice: for `m >= 0` the first `m` elements, for
negative `m` all but the last `-m` elements (clamped at the ends). -/
def pySlice {α : Type} (xs : List α) (m : Int) : List α :=
  if 0 ≤ m then xs.take m.toNat else xs.take (xs.length - (-m).toNat)

/-- Lines 544-545: `max_items = len(result) if (max_items == -1) else
max_items` followed by `result[:max_items]`. -/
def truncateStage (xs : List Node) (maxItems : Int) : List Node :=
  pySlice xs (if maxItems = -1 then (xs.length : Int) else maxItems)

/-- Claim C6: for `n >= 0` the assembled feature list has exactly
`min(n, len(matched))` entries, and `n = -1` emits every matched item. -/
theorem claimC6_truncation :
    ∀ (xs : List Node) (n : Int),
      (0 ≤ n → (truncateStage xs n).length = min n.toNat xs.length) ∧
        truncateStage xs (-1) = xs := by
  intro xs n
  constructor
  · intro hn
    have hne : ¬(n = -1) := by omega
    rw [truncateStage, if_neg hne, pySlice, if_pos hn, List.length_take]
  · rw [truncateStage, if_pos rfl, pySlice,
      if_pos (by exact_mod_cast Nat.zero_le xs.length)]
    simp

theorem claimC6_witness :
    (0 ≤ (1 : Int)) ∧
    (truncateStage [itemX, itemY] 1).length = min (1 : Int).toNat [itemX, itemY].length ∧
    truncateStage [itemX, itemY] (-1) = [itemX, itemY] := by
  exact ⟨by decide, (claimC6_truncation [itemX, itemY] 1).1 (by decide),
    (claimC6_truncation [itemX, itemY] (-1)).2⟩

/-- Outcome of `get_stac_search`: an error response (HTTP status and error
code) or a 200 FeatureCollection carrying the listed features. -/
inductive SearchResult where
  | error (status : Nat) (code : String) : SearchResult
  | ok (features : List Node) : SearchResult
  deriving DecidableEq

/-- `get_stac_search` (lines 346-546) after request parsing, over an
abstract provider `resolve` and catalog configuration `cfgCollections`
(the configured stac-collection names, which lines 423-431 read from the
root document when the query has no `collections` key).  Provider and
geometry-parse error branches are absorbed into the abstract resolver and
geometry value; `none` models non-termination of the recursive item
search.  The validation of mutually exclusive `bbox`/`intersects`
(lines 417-420) precedes every resolution step, which is why the error
branch consults neither `resolve` nor the fuel. -/
def get_stac_search (gint : Geom → Geom → Bool) (resolve : String → Node)
    (cfgCollections : List String) (fuel : Nat) (q : SearchQuery) :
    Option SearchResult :=
  if "bbox" ∈ q.criteria ∧ "intersects" ∈ q.criteria then
    some (SearchResult.error 400 "InvalidParameterValue")
  else
    let collections := if "collections" ∈ q.criteria then q.collections
      else cfgCollections
    let linkSets := (collections.map resolve).map Node.links
    match linkSets.mapM (recursiveSearchItems resolve fuel) with
    | none => none
    | some itemLists =>
      let items := itemLists.flatten
      some (SearchResult.ok
        (truncateStage (sortStage (filterStage gint items q) q.sortby) q.maxItems))

/-- Claim C3: whenever both `bbox` and `intersects` occur among the query
criteria, the search returns 400 `InvalidParameterValue` — for every
provider, every configuration and even zero fuel, i.e. before any
collection resolution or flattening work. -/
theorem claimC3_bbox_intersects_exclusive :
    ∀ (gint : Geom → Geom → Bool) (resolve : String → Node)
      (cfgCollections : List String) (fuel : Nat) (q : SearchQuery),
      "bbox" ∈ q.criteria → "intersects" ∈ q.criteria →
      get_stac_search gint resolve cfgCollections fuel q =
        some (SearchResult.error 400 "InvalidParameterValue") := by
  intro gint resolve cfg fuel q h1 h2
  rw [get_stac_search, if_pos ⟨h1, h2⟩]

/-- A query carrying both spatial predicates. -/
def queryBoth : SearchQuery :=
  ⟨["bbox", "intersects"], [], [], [0, 0, 10, 10], ⟨0⟩, -1, ⟨"", "asc"⟩⟩

theorem claimC3_witness :
    ("bbox" ∈ queryBoth.criteria) ∧ ("intersects" ∈ queryBoth.criteria) ∧
    get_stac_search gintNone loopResolve ["c1"] 0 queryBoth =
      some (SearchResult.error 400 "InvalidParameterValue") := by
  exact ⟨by decide, by decide,
    claimC3_bbox_intersects_exclusive gintNone loopResolve ["c1"] 0 queryBoth
      (by decide) (by decide)⟩

/-- Python's `path.split('/')` over the characters of the path (the
separator is the single character `/`; `split` always returns at least one
token). -/
def splitTokens : List Char → List String
  | [] => [""]
  | c :: cs =>
    let rest := splitTokens cs
    if c == '/' then "" :: rest
    else String.mk (c :: (rest.headD "").data) :: rest.tail

/-- `path.split('/')` as used at line 264. -/
def pathTokens (path : String) : List String :=
  splitTokens path.data

/-- Lines 262-272 of `get_stac_collections`: the datasets to report — the
last path token alone when the first token has exactly two characters,
otherwise every configured stac-collection key. -/
def collectionsDatasets (cfgKeys : List String) (path : String) : List String :=
  if ((pathTokens path).headD "").length == 2 then [(pathTokens path).getLastD ""]
  else cfgKeys

/-- Claim C10: the single-collection branch of the collections listing is
taken exactly when the first `/`-separated token of the path has two
characters (it then reports only the last token); any other path reports
every configured stac-collection. -/
theorem claimC10_collections_branch :
    ∀ (cfgKeys : List String) (path : String),
      (((pathTokens path).headD "").length = 2 →
        collectionsDatasets cfgKeys path = [(pathTokens path).getLastD ""]) ∧
      (((pathTokens path).headD "").length ≠ 2 →
        collectionsDatasets cfgKeys path = cfgKeys) := by
  intro cfg path
  constructor
  · intro h
    rw [collectionsDatasets, if_pos (by simpa using h)]
  · intro h
    rw [collectionsDatasets, if_neg (by simpa using h)]

theorem claimC10_witness :
    ((((pathTokens "en/lakes").headD "").length = 2) ∧
      collectionsDatasets ["c1", "c2"] "en/lakes" = ["lakes"]) ∧
    ((((pathTokens "collections/lakes").headD "").length ≠ 2) ∧
      collectionsDatasets ["c1", "c2"] "collections/lakes" = ["c1", "c2"]) := by
  exact ⟨⟨by decide, (claimC10_collections_branch ["c1", "c2"] "en/lakes").1 (by decide)⟩,
    ⟨by decide, (claimC10_collections_branch ["c1", "c2"] "collections/lakes").2 (by decide)⟩⟩
